import Mathlib

/-!
Verification of the SCORM 2004 Run-Time Environment (RTE) of the LMS
backend, as implemented in app/api/scorm.py with the data model of
app/models/course.py and app/models/enrollment.py.

The database is embedded as lists of rows.  SQLAlchemy query `.first()`
becomes `List.find?`, `.count()` becomes `List.countP`, and mutating the
object returned by `.first()` followed by `db.commit()` becomes replacing
every row with the same primary key (primary keys are unique in the
database, which the invariant theorems track explicitly where needed).
`datetime.utcnow()` is an abstract tick passed to each operation as `now`.
Float columns are embedded as exact rationals; diagnostic `error_message`
strings of the HTTP responses are not modelled, only `success`,
`error_code` and the data payload.
-/

namespace ScormRTE

/-- A user row; the RTE reads only id, full_name and email
(app/models/user.py). -/
structure User where
  id : Nat
  email : String
  fullName : Option String
deriving DecidableEq, Repr

/-- A SCO row (app/models/course.py, class SCO).  Only the columns the RTE
operations consult are embedded: id, course_id, title, launch_data and
mastery_score; the remaining manifest columns are never read by scorm.py. -/
structure SCO where
  id : Nat
  courseId : Nat
  title : String
  launchData : Option String
  masteryScore : Option ℚ
deriving DecidableEq, Repr

/-- An enrollment row (app/models/enrollment.py). -/
structure Enrollment where
  id : Nat
  userId : Nat
  courseId : Nat
  isActive : Bool
deriving DecidableEq, Repr

/-- A learner_attempts row (app/models/course.py, class LearnerAttempt).
The JSON columns for interactions, objectives and comments are never read
or written by the RTE endpoints and are omitted.  Timestamps are abstract
ticks; last_accessed_at and completed_at are null until first written. -/
structure LearnerAttempt where
  id : Nat
  userId : Nat
  scoId : Nat
  enrollmentId : Nat
  attemptNumber : Nat
  completionStatus : String
  successStatus : String
  scoreRaw : Option ℚ
  scoreMin : Option ℚ
  scoreMax : Option ℚ
  scoreScaled : Option ℚ
  sessionTime : Nat
  totalTime : Nat
  location : Option String
  suspendData : Option String
  entry : Option String
  exitMode : Option String
  progressMeasure : Option ℚ
  startedAt : Nat
  lastAccessedAt : Option Nat
  completedAt : Option Nat
deriving DecidableEq, Repr

/-- The database state the RTE operations read and write. `nextAttemptId`
models the primary-key sequence of learner_attempts. -/
structure RTEState where
  scos : List SCO
  enrollments : List Enrollment
  attempts : List LearnerAttempt
  nextAttemptId : Nat
deriving DecidableEq, Repr

/-- Filter of `db.query(SCO).filter(SCO.id == sco_id)`. -/
def scoById (i : Nat) (s : SCO) : Bool := s.id == i

/-- Filter of the enrollment lookup in the initialize endpoint: user_id,
course_id and is_active == True. -/
def activeEnrFor (uid cid : Nat) (e : Enrollment) : Bool :=
  e.userId == uid && e.courseId == cid && e.isActive

/-- Completion statuses that the initialize endpoint treats as an open attempt:
`completion_status.in_(["incomplete", "not attempted"])`. -/
def isOpenStatus (s : String) : Bool :=
  s == "incomplete" || s == "not attempted"

/-- Filter of the open-attempt lookup in the initialize endpoint: user_id,
sco_id, enrollment_id and an open completion status. -/
def openEnrPred (uid sid eid : Nat) (a : LearnerAttempt) : Bool :=
  a.userId == uid && a.scoId == sid && a.enrollmentId == eid &&
    isOpenStatus a.completionStatus

/-- An open attempt of a learner on a SCO, regardless of enrollment (the
form used by the specification). -/
def openFor (uid sid : Nat) (a : LearnerAttempt) : Bool :=
  a.userId == uid && a.scoId == sid && isOpenStatus a.completionStatus

/-- Filter of the prior-attempt count in the initialize endpoint: user_id and
sco_id only. -/
def priorPred (uid sid : Nat) (a : LearnerAttempt) : Bool :=
  a.userId == uid && a.scoId == sid

/-- Filter of the attempt lookup in get-value, set-value, commit and
finish: id and user_id (ownership check). -/
def ownerPred (i uid : Nat) (a : LearnerAttempt) : Bool :=
  a.id == i && a.userId == uid

/-- Replace every attempt row carrying the given primary key.  Primary
keys are unique in the database, so this is the ORM mutation of the row
returned by `.first()`. -/
def updateById (l : List LearnerAttempt) (i : Nat)
    (f : LearnerAttempt → LearnerAttempt) : List LearnerAttempt :=
  l.map fun a => if a.id == i then f a else a

/-- Result of the initialize endpoint.  Failure responses carry no
attempt_id, launch_data or mastery_score. -/
structure InitResult where
  success : Bool
  errorCode : String
  attemptId : Option Nat
  launchData : String
  masteryScore : Option ℚ
deriving DecidableEq, Repr

/-- Result of the get-value endpoint. -/
structure GetResult where
  success : Bool
  errorCode : String
  value : String
deriving DecidableEq, Repr

/-- Result of the set-value, commit and finish endpoints. -/
structure SetResult where
  success : Bool
  errorCode : String
deriving DecidableEq, Repr

/-- LMSInitialize (the initialize endpoint of app/api/scorm.py lines 19 to 83):
look up the SCO, check the active enrollment, then either resume the open
attempt found for (user, sco, enrollment) or create a new attempt numbered
after the count of all prior attempts for (user, sco). -/
def scorm_init (st : RTEState) (u : User) (scoId now : Nat) :
    InitResult × RTEState :=
  match st.scos.find? (scoById scoId) with
  | none =>
    ({ success := false, errorCode := "201", attemptId := none,
       launchData := "", masteryScore := none }, st)
  | some sco =>
    match st.enrollments.find? (activeEnrFor u.id sco.courseId) with
    | none =>
      ({ success := false, errorCode := "401", attemptId := none,
         launchData := "", masteryScore := none }, st)
    | some enr =>
      match st.attempts.find? (openEnrPred u.id scoId enr.id) with
      | some att =>
        ({ success := true, errorCode := "0", attemptId := some att.id,
           launchData := sco.launchData.getD "",
           masteryScore := sco.masteryScore },
         { st with attempts := updateById st.attempts att.id fun _ =>
             { att with entry := some "resume", lastAccessedAt := some now } })
      | none =>
        let cnt := st.attempts.countP (priorPred u.id scoId)
        let na : LearnerAttempt :=
          { id := st.nextAttemptId, userId := u.id, scoId := scoId,
            enrollmentId := enr.id, attemptNumber := cnt + 1,
            completionStatus := "not attempted", successStatus := "unknown",
            scoreRaw := none, scoreMin := none, scoreMax := none,
            scoreScaled := none, sessionTime := 0, totalTime := 0,
            location := none, suspendData := none,
            entry := some "ab-initio", exitMode := none,
            progressMeasure := none, startedAt := now,
            lastAccessedAt := none, completedAt := none }
        ({ success := true, errorCode := "0", attemptId := some na.id,
           launchData := sco.launchData.getD "",
           masteryScore := sco.masteryScore },
         { st with attempts := st.attempts ++ [na],
                   nextAttemptId := st.nextAttemptId + 1 })

/-- Numeric value of a decimal digit character. -/
def dval (c : Char) : Nat := c.toNat - 48

/-- Maximal run of decimal digits at the head of the list: its numeric
value, its length, and the remaining characters.  Mirrors what a greedy
regex digit group consumes. -/
def digitRun : List Char → Nat × Nat × List Char
  | [] => (0, 0, [])
  | c :: cs =>
    if c.isDigit then
      let (v, k, rest) := digitRun cs
      (dval c * 10 ^ k + v, k + 1, rest)
    else (0, 0, c :: cs)

/-- One optional group of the session_time pattern, digits followed by the
given unit letter.  The group matches exactly when the maximal digit run
is nonempty and immediately followed by the letter; otherwise the group is
absent, contributes 0 and consumes nothing, as with the regex groups
(\d+)H and (\d+)M under re.match backtracking. -/
def parseNumGroup (unit : Char) (cs : List Char) : Nat × List Char :=
  let (v, k, rest) := digitRun cs
  match rest with
  | c :: rest2 => if k ≠ 0 && c == unit then (v, rest2) else (0, cs)
  | [] => (0, cs)

/-- Parsed form of the seconds group (\d+(?:\.\d+)?)S: integer part, then
numeric value and digit count of the fractional part (both 0 when the
group is absent or has no fraction). -/
structure SecGroup where
  intPart : Nat
  fracVal : Nat
  fracLen : Nat
deriving DecidableEq, Repr

/-- The optional seconds group of the session_time pattern.  It matches
exactly when a nonempty digit run, optionally followed by a dot and a
nonempty digit run, is immediately followed by the letter S; any other
shape leaves the group absent, as with the regex under backtracking. -/
def parseSecGroup (cs : List Char) : SecGroup :=
  let (v, k, rest) := digitRun cs
  if k == 0 then { intPart := 0, fracVal := 0, fracLen := 0 }
  else
    match rest with
    | 'S' :: _ => { intPart := v, fracVal := 0, fracLen := 0 }
    | '.' :: rest2 =>
      let (fv, fk, rest3) := digitRun rest2
      if fk == 0 then { intPart := 0, fracVal := 0, fracLen := 0 }
      else
        match rest3 with
        | 'S' :: _ => { intPart := v, fracVal := fv, fracLen := fk }
        | _ => { intPart := 0, fracVal := 0, fracLen := 0 }
    | _ => { intPart := 0, fracVal := 0, fracLen := 0 }

/-- Parsed ISO-8601-like duration, the three capture groups of the
session_time pattern with absent groups read as 0 (`or 0` in the source). -/
structure Duration where
  hours : Nat
  minutes : Nat
  seconds : SecGroup
deriving DecidableEq, Repr

/-- The session_time codec of scorm_set_value (scorm.py line 194):
re.match with pattern PT(?:(\d+)H)?(?:(\d+)M)?(?:(\d+(?:\.\d+)?)S)?.
Since all three groups are optional and re.match anchors only at the
start, the pattern matches exactly the strings beginning with PT, ignores
trailing text, and each group matches greedily when its digits and unit
letter are present.  Digits are embedded as ASCII digits. -/
def parseDuration (s : String) : Option Duration :=
  match s.data with
  | 'P' :: 'T' :: rest =>
    let (h, r1) := parseNumGroup 'H' rest
    let (m, r2) := parseNumGroup 'M' r1
    some { hours := h, minutes := m, seconds := parseSecGroup r2 }
  | _ => none

/-- Whether the string begins with the characters P then T, the condition
under which the session_time pattern matches. -/
def startsWithPT (s : String) : Bool :=
  match s.data with
  | 'P' :: 'T' :: _ => true
  | _ => false

/-- Whole-second value the source stores for a parsed duration:
int(hours * 3600 + minutes * 60 + seconds) with a nonnegative seconds
float, which truncates the fractional digits. -/
def durationSeconds (d : Duration) : Nat :=
  d.hours * 3600 + d.minutes * 60 + d.seconds.intPart

/-- Exact rational value of the seconds group, integer part plus
fractional digits. -/
def secGroupValue (g : SecGroup) : ℚ :=
  (g.intPart : ℚ) + (g.fracVal : ℚ) / (10 : ℚ) ^ g.fracLen

/-- Exact rational value of the whole parsed duration in seconds. -/
def durationValue (d : Duration) : ℚ :=
  (d.hours : ℚ) * 3600 + (d.minutes : ℚ) * 60 + secGroupValue d.seconds

/-- Python float() on the decimal-literal fragment: optional sign, digits
with an optional fractional part.  Embedded exactly as a rational; none
models the ValueError the source catches and turns into error_code 405.
No claim depends on the exact accepted language beyond this fragment. -/
def parseFloat? (s : String) : Option ℚ :=
  let core (l : List Char) (sign : ℚ) : Option ℚ :=
    let (v, k, rest) := digitRun l
    if k == 0 then none
    else
      match rest with
      | [] => some (sign * v)
      | '.' :: rest2 =>
        let (fv, fk, rest3) := digitRun rest2
        if fk == 0 ∨ rest3 ≠ [] then none
        else some (sign * ((v : ℚ) + (fv : ℚ) / (10 : ℚ) ^ fk))
      | _ => none
  match s.data with
  | '-' :: l => core l (-1)
  | '+' :: l => core l 1
  | l => core l 1

/-- Vocabulary accepted for cmi.completion_status (scorm.py line 158). -/
def completionVocab : List String :=
  ["completed", "incomplete", "not attempted", "unknown"]

/-- Vocabulary accepted for cmi.success_status (scorm.py line 164). -/
def successVocab : List String := ["passed", "failed", "unknown"]

/-- The per-element branch of scorm_set_value (scorm.py lines 156 to 207)
applied to the attempt row the ownership lookup found.  none models the
early error returns: oversized suspend_data, and the float ValueError the
except clause turns into error_code 405; in both cases the row is not
mutated and last_accessed_at is not restamped. -/
def setField (a : LearnerAttempt) (element value : String) (now : Nat) :
    Option LearnerAttempt :=
  if element == "cmi.completion_status" then
    some (if completionVocab.contains value then
      { a with completionStatus := value,
               completedAt :=
                 if value == "completed" && a.completedAt.isNone then
                   some now
                 else a.completedAt }
    else a)
  else if element == "cmi.success_status" then
    some (if successVocab.contains value then
      { a with successStatus := value } else a)
  else if element == "cmi.score.raw" then
    if value == "" then some { a with scoreRaw := none }
    else (parseFloat? value).map fun q => { a with scoreRaw := some q }
  else if element == "cmi.score.min" then
    if value == "" then some { a with scoreMin := none }
    else (parseFloat? value).map fun q => { a with scoreMin := some q }
  else if element == "cmi.score.max" then
    if value == "" then some { a with scoreMax := none }
    else (parseFloat? value).map fun q => { a with scoreMax := some q }
  else if element == "cmi.score.scaled" then
    if value == "" then some { a with scoreScaled := none }
    else (parseFloat? value).map fun q => { a with scoreScaled := some q }
  else if element == "cmi.location" then
    some { a with location := some value }
  else if element == "cmi.suspend_data" then
    if value.length ≤ 64000 then some { a with suspendData := some value }
    else none
  else if element == "cmi.exit" then
    some { a with exitMode := some value }
  else if element == "cmi.session_time" then
    some (match parseDuration value with
      | some d =>
        { a with sessionTime := durationSeconds d,
                 totalTime := a.totalTime + durationSeconds d }
      | none => a)
  else if element == "cmi.progress_measure" then
    if value == "" then some { a with progressMeasure := none }
    else (parseFloat? value).map fun q => { a with progressMeasure := some q }
  else
    some a

/-- LMSSetValue (scorm_set_value, scorm.py lines 135 to 214): ownership
lookup, per-element update, then last_accessed_at restamp on the success
path. -/
def scorm_set_value (st : RTEState) (u : User) (attemptId : Nat)
    (element value : String) (now : Nat) : SetResult × RTEState :=
  match st.attempts.find? (ownerPred attemptId u.id) with
  | none => ({ success := false, errorCode := "201" }, st)
  | some a =>
    match setField a element value now with
    | none => ({ success := false, errorCode := "405" }, st)
    | some a2 =>
      ({ success := true, errorCode := "0" },
       { st with attempts := updateById st.attempts attemptId fun _ =>
           { a2 with lastAccessedAt := some now } })

/-- Rendering of a rational score for GetValue, standing in for the str()
conversion of a Python float.  No theorem relies on its exact format. -/
def ratStr (q : ℚ) : String := toString q

/-- Rendering of a seconds counter for GetValue: PT{n}S when the stored
integer is truthy, PT0S otherwise (scorm.py lines 117 and 118). -/
def secondsStr (n : Nat) : String :=
  if n != 0 then "PT" ++ toString n ++ "S" else "PT0S"

/-- LMSGetValue (scorm_get_value, scorm.py lines 86 to 132): ownership
lookup, then the cmi_map dictionary with empty-string default.  The
dictionary is built without side effects, so the lookup is embedded as a
chain of comparisons. -/
def scorm_get_value (st : RTEState) (u : User) (attemptId : Nat)
    (element : String) : GetResult :=
  match st.attempts.find? (ownerPred attemptId u.id) with
  | none => { success := false, errorCode := "201", value := "" }
  | some a =>
    let v :=
      if element == "cmi.completion_status" then a.completionStatus
      else if element == "cmi.success_status" then a.successStatus
      else if element == "cmi.score.raw" then
        (match a.scoreRaw with | some q => ratStr q | none => "")
      else if element == "cmi.score.min" then
        (match a.scoreMin with | some q => ratStr q | none => "")
      else if element == "cmi.score.max" then
        (match a.scoreMax with | some q => ratStr q | none => "")
      else if element == "cmi.score.scaled" then
        (match a.scoreScaled with | some q => ratStr q | none => "")
      else if element == "cmi.location" then a.location.getD ""
      else if element == "cmi.suspend_data" then a.suspendData.getD ""
      else if element == "cmi.entry" then a.entry.getD ""
      else if element == "cmi.exit" then a.exitMode.getD ""
      else if element == "cmi.session_time" then secondsStr a.sessionTime
      else if element == "cmi.total_time" then secondsStr a.totalTime
      else if element == "cmi.progress_measure" then
        (match a.progressMeasure with | some q => ratStr q | none => "")
      else if element == "cmi.learner_id" then toString u.id
      else if element == "cmi.learner_name" then
        (match u.fullName with
         | some n => if n == "" then u.email else n
         | none => u.email)
      else if element == "cmi.mode" then "normal"
      else if element == "cmi.credit" then "credit"
      else ""
    { success := true, errorCode := "0", value := v }

/-- LMSCommit (scorm_commit, scorm.py lines 217 to 239): ownership lookup
then db.commit; all writes are already on the attempt row, so the state is
unchanged. -/
def scorm_commit (st : RTEState) (u : User) (attemptId : Nat) :
    SetResult × RTEState :=
  match st.attempts.find? (ownerPred attemptId u.id) with
  | none => ({ success := false, errorCode := "201" }, st)
  | some _ => ({ success := true, errorCode := "0" }, st)

/-- State with the last_accessed_at stamps erased, for comparing final
attempt states apart from the last-accessed timestamp. -/
def eraseLastAccessed (st : RTEState) : RTEState :=
  { st with attempts := st.attempts.map fun a => { a with lastAccessedAt := none } }

/-- The status rewrite LMSFinish performs: completion_status still
"not attempted" becomes "incomplete", anything else is kept. -/
def finishStatus (s : String) : String :=
  if s == "not attempted" then "incomplete" else s

/-- LMSFinish (scorm_finish, scorm.py lines 242 to 272): ownership lookup,
last_accessed_at restamp, and the not-attempted to incomplete rewrite. -/
def scorm_finish (st : RTEState) (u : User) (attemptId now : Nat) :
    SetResult × RTEState :=
  match st.attempts.find? (ownerPred attemptId u.id) with
  | none => ({ success := false, errorCode := "201" }, st)
  | some a =>
    ({ success := true, errorCode := "0" },
     { st with attempts := updateById st.attempts attemptId fun _ =>
         { a with lastAccessedAt := some now,
                  completionStatus := finishStatus a.completionStatus } })

/-- The specification invariant: at most one open attempt per
(user, sco) pair, open meaning completion_status in
{incomplete, not attempted}. -/
def atMostOneOpen (st : RTEState) : Prop :=
  ∀ uid sid, st.attempts.countP (openFor uid sid) ≤ 1

/-- Data-model consistency maintained by the repository: every attempt
row references exactly the enrollment row that the Initialize lookup
locates for its user and the course of its SCO.  Attempts are only ever
created by scorm_init with that enrollment id, and no endpoint of
the repository deactivates or removes enrollment rows. -/
def attemptConsistent (st : RTEState) (a : LearnerAttempt) : Prop :=
  ∀ sco, st.scos.find? (scoById a.scoId) = some sco →
    ∀ e, st.enrollments.find? (activeEnrFor a.userId sco.courseId) = some e →
      a.enrollmentId = e.id

/-- Primary keys of learner_attempts are pairwise distinct. -/
def idsUnique (st : RTEState) : Prop :=
  (st.attempts.map fun a => a.id).Nodup

/-- The primary-key sequence is ahead of every existing attempt row. -/
def idsFresh (st : RTEState) : Prop :=
  ∀ a ∈ st.attempts, a.id < st.nextAttemptId

/-- Conjunction of the database well-formedness facts and the open-attempt
invariant. -/
def Inv (st : RTEState) : Prop :=
  idsUnique st ∧ idsFresh st ∧ (∀ a ∈ st.attempts, attemptConsistent st a) ∧
    atMostOneOpen st

/-- One state-changing RTE call among Initialize, Commit and Finish
(GetValue and GetLastError read without writing). -/
inductive RTEStep : RTEState → RTEState → Prop
  | doInit (st : RTEState) (u : User) (scoId now : Nat) :
      RTEStep st (scorm_init st u scoId now).2
  | doCommit (st : RTEState) (u : User) (attemptId : Nat) :
      RTEStep st (scorm_commit st u attemptId).2
  | doFinish (st : RTEState) (u : User) (attemptId now : Nat) :
      RTEStep st (scorm_finish st u attemptId now).2

/-- Reachability by any number of Initialize, Commit and Finish calls. -/
def ReachICF : RTEState → RTEState → Prop :=
  Relation.ReflTransGen RTEStep

/-- Concrete learner used by witnesses and counterexamples. -/
def learner1 : User :=
  { id := 1, email := "learner@example.com", fullName := none }

/-- Concrete SCO in course 20. -/
def sco10 : SCO :=
  { id := 10, courseId := 20, title := "Module 1", launchData := none,
    masteryScore := none }

/-- Concrete active enrollment of learner 1 in course 20. -/
def enr5 : Enrollment :=
  { id := 5, userId := 1, courseId := 20, isActive := true }

/-- Concrete open attempt row of learner 1 on SCO 10 under enrollment 5. -/
def attempt100 : LearnerAttempt :=
  { id := 100, userId := 1, scoId := 10, enrollmentId := 5,
    attemptNumber := 1, completionStatus := "not attempted",
    successStatus := "unknown", scoreRaw := none, scoreMin := none,
    scoreMax := none, scoreScaled := none, sessionTime := 0,
    totalTime := 0, location := none, suspendData := none,
    entry := some "ab-initio", exitMode := none, progressMeasure := none,
    startedAt := 0, lastAccessedAt := none, completedAt := none }

/-- Concrete state with no attempts yet. -/
def st0 : RTEState :=
  { scos := [sco10], enrollments := [enr5], attempts := [],
    nextAttemptId := 100 }

/-- Concrete state holding the one open attempt row. -/
def st1 : RTEState :=
  { scos := [sco10], enrollments := [enr5], attempts := [attempt100],
    nextAttemptId := 101 }

/-- First step of the reachable two-open-attempts scenario: Initialize
creates attempt 100. -/
def cexState1 : RTEState := (scorm_init st0 learner1 10 1).2

/-- Second step: the player reports attempt 100 completed. -/
def cexState2 : RTEState :=
  (scorm_set_value cexState1 learner1 100 "cmi.completion_status"
    "completed" 2).2

/-- Third step: a fresh Initialize finds no open attempt and creates
attempt 101. -/
def cexState3 : RTEState := (scorm_init cexState2 learner1 10 3).2

/-- Fourth step: SetValue rewinds attempt 100 to incomplete, leaving two
open attempts for (user 1, sco 10). -/
def cexState4 : RTEState :=
  (scorm_set_value cexState3 learner1 100 "cmi.completion_status"
    "incomplete" 4).2

/-- One state-changing RTE call of any kind, SetValue included. -/
inductive RTEStepFull : RTEState → RTEState → Prop
  | doInit (st : RTEState) (u : User) (scoId now : Nat) :
      RTEStepFull st (scorm_init st u scoId now).2
  | doSet (st : RTEState) (u : User) (attemptId : Nat)
      (element value : String) (now : Nat) :
      RTEStepFull st (scorm_set_value st u attemptId element value now).2
  | doCommit (st : RTEState) (u : User) (attemptId : Nat) :
      RTEStepFull st (scorm_commit st u attemptId).2
  | doFinish (st : RTEState) (u : User) (attemptId now : Nat) :
      RTEStepFull st (scorm_finish st u attemptId now).2

/-- Concrete attempt row already stamped completed at tick 2. -/
def attempt100c : LearnerAttempt :=
  { attempt100 with completionStatus := "completed", completedAt := some 2 }

/-- Concrete state holding the completed-and-stamped attempt row. -/
def st8 : RTEState :=
  { scos := [sco10], enrollments := [enr5], attempts := [attempt100c],
    nextAttemptId := 101 }

/-- A 64001-character string, one character over the suspend_data limit. -/
def longString : String := String.mk (List.replicate 64001 'a')

/-- Concrete SCO in course 21, a course learner 1 is not enrolled in. -/
def sco11 : SCO :=
  { id := 11, courseId := 21, title := "Module 2", launchData := none,
    masteryScore := none }

/-- Concrete state with two SCOs, one of them in an unenrolled course. -/
def st7 : RTEState :=
  { scos := [sco10, sco11], enrollments := [enr5], attempts := [],
    nextAttemptId := 100 }

theorem find?_congr_mem {α : Type} (l : List α) (p q : α → Bool)
    (h : ∀ a ∈ l, p a = q a) : l.find? p = l.find? q := by
  induction l with
  | nil => rfl
  | cons a t ih =>
    have ha := h a (List.mem_cons_self a t)
    have ht := ih fun b hb => h b (List.mem_cons_of_mem a hb)
    cases hq : q a <;> simp [List.find?_cons, ha, hq, ht]

theorem find?_eq_some_of_unique {α : Type} (l : List α) (p : α → Bool)
    (x : α) (hex : ∃ b, b ∈ l ∧ p b = true)
    (huniq : ∀ b ∈ l, p b = true → b = x) : l.find? p = some x := by
  induction l with
  | nil => obtain ⟨b, hb, _⟩ := hex; exact absurd hb (List.not_mem_nil b)
  | cons a t ih =>
    cases hpa : p a with
    | true =>
      have hax := huniq a (List.mem_cons_self a t) hpa
      subst hax
      simp [List.find?_cons, hpa]
    | false =>
      have hex2 : ∃ b, b ∈ t ∧ p b = true := by
        obtain ⟨b, hb, hpb⟩ := hex
        rcases List.mem_cons.1 hb with rfl | hbt
        · exact absurd hpb (by simp [hpa])
        · exact ⟨b, hbt, hpb⟩
      have := ih hex2 fun b hb hpb =>
        huniq b (List.mem_cons_of_mem a hb) hpb
      simp [List.find?_cons, hpa, this]

theorem countP_congr_mem {α : Type} (l : List α) (p q : α → Bool)
    (h : ∀ a ∈ l, p a = q a) : l.countP p = l.countP q := by
  induction l with
  | nil => rfl
  | cons a t ih =>
    have ha := h a (List.mem_cons_self a t)
    have ht := ih fun b hb => h b (List.mem_cons_of_mem a hb)
    simp [List.countP_cons, ha, ht]

theorem openEnrPred_split (a : LearnerAttempt) (uid sid eid : Nat) :
    openEnrPred uid sid eid a =
      (openFor uid sid a && (a.enrollmentId == eid)) := by
  simp only [openEnrPred, openFor]
  cases a.userId == uid <;> cases a.scoId == sid <;>
    cases a.enrollmentId == eid <;> cases isOpenStatus a.completionStatus <;>
      rfl

theorem find?_openEnr_eq_find?_open (st : RTEState) (uid sid eid : Nat)
    (h : ∀ a ∈ st.attempts, openFor uid sid a = true →
      a.enrollmentId = eid) :
    st.attempts.find? (openEnrPred uid sid eid) =
      st.attempts.find? (openFor uid sid) := by
  apply find?_congr_mem
  intro a ha
  rw [openEnrPred_split]
  cases hof : openFor uid sid a with
  | false => simp
  | true => simp [h a ha hof]

theorem parseDuration_eq_none (s : String) (h : startsWithPT s = false) :
    parseDuration s = none := by
  unfold parseDuration
  split
  · next heq =>
    rw [startsWithPT, heq] at h
    exact absurd h (by simp)
  · rfl

theorem ownerPred_fields (i uid : Nat) (a : LearnerAttempt)
    (h : ownerPred i uid a = true) : a.id = i ∧ a.userId = uid := by
  simpa [ownerPred, Bool.and_eq_true, beq_iff_eq] using h

theorem find?_owner_update_const (l : List LearnerAttempt) (i uid : Nat)
    (a a2 : LearnerAttempt)
    (hfind : l.find? (ownerPred i uid) = some a)
    (hid : a2.id = i) (huid : a2.userId = uid) :
    (updateById l i fun _ => a2).find? (ownerPred i uid) = some a2 := by
  have hmem := List.mem_of_find?_eq_some hfind
  have hpa := List.find?_some hfind
  obtain ⟨haid, -⟩ := ownerPred_fields i uid a hpa
  apply find?_eq_some_of_unique
  · refine ⟨a2, ?_, ?_⟩
    · exact List.mem_map.2 ⟨a, hmem, by simp [haid]⟩
    · simp [ownerPred, hid, huid]
  · intro b hb hpb
    obtain ⟨c, -, rfl⟩ := List.mem_map.1 hb
    by_cases hci : c.id == i
    · simp [hci]
    · rw [if_neg hci] at hpb ⊢
      obtain ⟨hcid, -⟩ := ownerPred_fields i uid c hpb
      exact absurd (by simp [hcid]) hci

/-- C6: every GetValue or SetValue call whose attempt_id does not belong
to the calling learner (wrong owner or nonexistent row, so the ownership
lookup finds nothing) returns error_code 201 and mutates no attempt
state. -/
theorem C6_cross_learner (st : RTEState) (u : User) (attemptId : Nat)
    (element v : String) (now : Nat)
    (hfind : st.attempts.find? (ownerPred attemptId u.id) = none) :
    scorm_get_value st u attemptId element =
      { success := false, errorCode := "201", value := "" } ∧
    (scorm_set_value st u attemptId element v now).1 =
      { success := false, errorCode := "201" } ∧
    (scorm_set_value st u attemptId element v now).2 = st := by
  refine ⟨?_, ?_, ?_⟩ <;> simp [scorm_get_value, scorm_set_value, hfind]

/-- C6 witness: learner 1 calling on attempt 999, which does not exist in
the concrete one-attempt state. -/
theorem C6_cross_learner_witness :
    scorm_get_value st1 learner1 999 "cmi.location" =
      { success := false, errorCode := "201", value := "" } ∧
    (scorm_set_value st1 learner1 999 "cmi.location" "p3" 7).2 = st1 := by
  have h := C6_cross_learner st1 learner1 999 "cmi.location" "p3" 7
    (by decide)
  exact ⟨h.1, h.2.2⟩

/-- C7: Initialize returns error_code 201 when no SCO row carries the
given id, and error_code 401 when the learner has no active enrollment in
the course of the SCO; in both failure cases the state is unchanged, so
no attempt is created or modified. -/
theorem C7_initialize_preconditions (st : RTEState) (u : User)
    (scoId now : Nat) :
    (st.scos.find? (scoById scoId) = none →
      (scorm_init st u scoId now).1.success = false ∧
      (scorm_init st u scoId now).1.errorCode = "201" ∧
      (scorm_init st u scoId now).2 = st) ∧
    (∀ sco, st.scos.find? (scoById scoId) = some sco →
      st.enrollments.find? (activeEnrFor u.id sco.courseId) = none →
      (scorm_init st u scoId now).1.success = false ∧
      (scorm_init st u scoId now).1.errorCode = "401" ∧
      (scorm_init st u scoId now).2 = st) := by
  constructor
  · intro hsco
    refine ⟨?_, ?_, ?_⟩ <;> simp [scorm_init, hsco]
  · intro sco hsco henr
    refine ⟨?_, ?_, ?_⟩ <;> simp [scorm_init, hsco, henr]

/-- C7 witness: SCO 99 does not exist in the concrete state, and learner
1 has no active enrollment for the course of SCO 11. -/
theorem C7_initialize_preconditions_witness :
    ((scorm_init st7 learner1 99 3).1.errorCode = "201" ∧
     (scorm_init st7 learner1 99 3).2 = st7) ∧
    ((scorm_init st7 learner1 11 3).1.errorCode = "401" ∧
     (scorm_init st7 learner1 11 3).2 = st7) := by
  have h1 := (C7_initialize_preconditions st7 learner1 99 3).1 (by decide)
  have h2 := (C7_initialize_preconditions st7 learner1 11 3).2 sco11
    (by decide) (by decide)
  exact ⟨⟨h1.2.1, h1.2.2⟩, ⟨h2.2.1, h2.2.2⟩⟩

/-- C4: SetValue of cmi.suspend_data by the owner of the attempt rejects
a string longer than 64000 characters with error_code 405 and an
unchanged state, and stores any string of at most 64000 characters
verbatim with error_code 0. -/
theorem C4_suspend_data (st : RTEState) (u : User) (attemptId now : Nat)
    (v : String) (a : LearnerAttempt)
    (hfind : st.attempts.find? (ownerPred attemptId u.id) = some a) :
    (64000 < v.length →
      (scorm_set_value st u attemptId "cmi.suspend_data" v now).1 =
        { success := false, errorCode := "405" } ∧
      (scorm_set_value st u attemptId "cmi.suspend_data" v now).2 = st) ∧
    (v.length ≤ 64000 →
      (scorm_set_value st u attemptId "cmi.suspend_data" v now).1 =
        { success := true, errorCode := "0" } ∧
      (scorm_set_value st u attemptId "cmi.suspend_data" v now).2.attempts =
        updateById st.attempts attemptId (fun _ =>
          { a with suspendData := some v, lastAccessedAt := some now })) := by
  constructor
  · intro hlen
    have hnone : setField a "cmi.suspend_data" v now = none := by
      simp [setField, Nat.not_le.2 hlen]
    refine ⟨?_, ?_⟩ <;> simp [scorm_set_value, hfind, hnone]
  · intro hlen
    have hsome : setField a "cmi.suspend_data" v now =
        some { a with suspendData := some v } := by
      simp [setField, hlen]
    refine ⟨?_, ?_⟩ <;> simp [scorm_set_value, hfind, hsome]

/-- C4 witness: a 64001-character blob is rejected with an unchanged
state, and a short blob is stored verbatim. -/
theorem C4_suspend_data_witness :
    ((scorm_set_value st1 learner1 100 "cmi.suspend_data" longString 7).1 =
      { success := false, errorCode := "405" } ∧
     (scorm_set_value st1 learner1 100 "cmi.suspend_data" longString 7).2 =
      st1) ∧
    (scorm_set_value st1 learner1 100 "cmi.suspend_data" "b64" 7).2.attempts =
      updateById st1.attempts 100 (fun _ =>
        { attempt100 with suspendData := some "b64",
                          lastAccessedAt := some 7 }) := by
  have hlen : longString.length = 64001 := by
    have hmk : (String.mk (List.replicate 64001 'a')).length =
        (List.replicate 64001 'a').length := rfl
    rw [longString, hmk, List.length_replicate]
  have hlong : (64000 : ℕ) < longString.length := by omega
  have h1 := (C4_suspend_data st1 learner1 100 7 longString attempt100
    (by decide)).1 hlong
  have h2 := (C4_suspend_data st1 learner1 100 7 "b64" attempt100
    (by decide)).2 (by decide)
  exact ⟨h1, h2.2⟩

/-- C9: SetValue of cmi.completion_status or cmi.success_status by the
owner with a value outside the allowed vocabulary reports success with
error_code 0 and leaves the field, and every other data field, unchanged;
only last_accessed_at is restamped.  The vocabulary violation is never
reported as a 405 type mismatch. -/
theorem C9_vocab_silently_ignored (st : RTEState) (u : User)
    (attemptId now : Nat) (v : String) (a : LearnerAttempt)
    (hfind : st.attempts.find? (ownerPred attemptId u.id) = some a) :
    (completionVocab.contains v = false →
      (scorm_set_value st u attemptId "cmi.completion_status" v now).1 =
        { success := true, errorCode := "0" } ∧
      (scorm_set_value st u attemptId "cmi.completion_status" v now).2.attempts
        = updateById st.attempts attemptId (fun _ =>
            { a with lastAccessedAt := some now })) ∧
    (successVocab.contains v = false →
      (scorm_set_value st u attemptId "cmi.success_status" v now).1 =
        { success := true, errorCode := "0" } ∧
      (scorm_set_value st u attemptId "cmi.success_status" v now).2.attempts
        = updateById st.attempts attemptId (fun _ =>
            { a with lastAccessedAt := some now })) := by
  constructor
  · intro hv
    have hv2 : v ∉ completionVocab := by simpa using hv
    have hsome : setField a "cmi.completion_status" v now = some a := by
      simp [setField, hv2]
    refine ⟨?_, ?_⟩ <;> simp [scorm_set_value, hfind, hsome]
  · intro hv
    have hv2 : v ∉ successVocab := by simpa using hv
    have hsome : setField a "cmi.success_status" v now = some a := by
      simp [setField, hv2]
    refine ⟨?_, ?_⟩ <;> simp [scorm_set_value, hfind, hsome]

/-- C9 witness: the out-of-vocabulary value done is accepted with
error_code 0 on both status elements and the stored statuses are
untouched. -/
theorem C9_vocab_silently_ignored_witness :
    ((scorm_set_value st1 learner1 100 "cmi.completion_status" "done" 7).1 =
      { success := true, errorCode := "0" } ∧
     (scorm_set_value st1 learner1 100 "cmi.completion_status" "done" 7).2.attempts
      = updateById st1.attempts 100 (fun _ =>
          { attempt100 with lastAccessedAt := some 7 })) ∧
    (scorm_set_value st1 learner1 100 "cmi.success_status" "done" 7).1 =
      { success := true, errorCode := "0" } := by
  have h := C9_vocab_silently_ignored st1 learner1 100 7 "done" attempt100
    (by decide)
  exact ⟨h.1 (by decide), (h.2 (by decide)).1⟩

/-- C10: SetValue of cmi.session_time by the owner with a value that does
not begin with PT, so the duration pattern does not match, reports
success with error_code 0 and changes nothing except the last_accessed_at
restamp; in particular session_time and total_time are unchanged and no
type-mismatch error is raised. -/
theorem C10_malformed_duration (st : RTEState) (u : User)
    (attemptId now : Nat) (v : String) (a : LearnerAttempt)
    (hfind : st.attempts.find? (ownerPred attemptId u.id) = some a)
    (hv : startsWithPT v = false) :
    (scorm_set_value st u attemptId "cmi.session_time" v now).1 =
      { success := true, errorCode := "0" } ∧
    (scorm_set_value st u attemptId "cmi.session_time" v now).2.attempts =
      updateById st.attempts attemptId (fun _ =>
        { a with lastAccessedAt := some now }) := by
  have hparse := parseDuration_eq_none v hv
  have hsome : setField a "cmi.session_time" v now = some a := by
    simp [setField, hparse]
  refine ⟨?_, ?_⟩ <;> simp [scorm_set_value, hfind, hsome]

/-- C10 witness: the malformed duration 90 minutes is accepted with
error_code 0 and only the last_accessed_at stamp changes. -/
theorem C10_malformed_duration_witness :
    (scorm_set_value st1 learner1 100 "cmi.session_time" "90 minutes" 7).1 =
      { success := true, errorCode := "0" } ∧
    (scorm_set_value st1 learner1 100 "cmi.session_time" "90 minutes" 7).2.attempts
      = updateById st1.attempts 100 (fun _ =>
          { attempt100 with lastAccessedAt := some 7 }) :=
  C10_malformed_duration st1 learner1 100 7 "90 minutes" attempt100
    (by decide) (by decide)

/-- C8: the first SetValue of cmi.completion_status to completed on an
attempt whose completed_at is still null stamps completed_at with the
current tick, a non-null value; any later SetValue of completed on the
same attempt keeps completed_at exactly as it was. -/
theorem C8_completed_at_stamped_once (st : RTEState) (u : User)
    (attemptId now : Nat) (a : LearnerAttempt)
    (hfind : st.attempts.find? (ownerPred attemptId u.id) = some a) :
    (a.completedAt = none →
      (scorm_set_value st u attemptId "cmi.completion_status" "completed"
          now).2.attempts =
        updateById st.attempts attemptId (fun _ =>
          { a with completionStatus := "completed",
                   completedAt := some now,
                   lastAccessedAt := some now })) ∧
    (∀ t, a.completedAt = some t →
      (scorm_set_value st u attemptId "cmi.completion_status" "completed"
          now).2.attempts =
        updateById st.attempts attemptId (fun _ =>
          { a with completionStatus := "completed",
                   lastAccessedAt := some now })) := by
  constructor
  · intro hc
    have hsome : setField a "cmi.completion_status" "completed" now =
        some { a with completionStatus := "completed",
                      completedAt := some now } := by
      simp [setField, completionVocab, hc]
    simp [scorm_set_value, hfind, hsome]
  · intro t hc
    have hsome : setField a "cmi.completion_status" "completed" now =
        some { a with completionStatus := "completed" } := by
      simp [setField, completionVocab, hc]
    simp [scorm_set_value, hfind, hsome]

/-- C8 witness: on the fresh attempt the stamp becomes tick 7; on the
already-stamped attempt the stamp of tick 2 survives a second completed
write at tick 7. -/
theorem C8_completed_at_stamped_once_witness :
    (scorm_set_value st1 learner1 100 "cmi.completion_status" "completed"
        7).2.attempts =
      updateById st1.attempts 100 (fun _ =>
        { attempt100 with completionStatus := "completed",
                          completedAt := some 7,
                          lastAccessedAt := some 7 }) ∧
    (scorm_set_value st8 learner1 100 "cmi.completion_status" "completed"
        7).2.attempts =
      updateById st8.attempts 100 (fun _ =>
        { attempt100c with completionStatus := "completed",
                           lastAccessedAt := some 7 }) := by
  have h1 := (C8_completed_at_stamped_once st1 learner1 100 7 attempt100
    (by decide)).1 (by decide)
  have h2 := (C8_completed_at_stamped_once st8 learner1 100 7 attempt100c
    (by decide)).2 2 (by decide)
  exact ⟨h1, h2⟩

/-- C1: an Initialize call on an existing SCO by a learner with an active
enrollment either resumes the open attempt, returning its id, setting
entry to resume and creating no row, or, when no open attempt exists,
appends exactly one new attempt numbered prior-count plus one with entry
ab-initio and completion_status not attempted.  The consistency
hypothesis, maintained by every operation of the repository, says open
attempts of this learner and SCO reference the enrollment row the lookup
finds. -/
theorem C1_initialize_resume_or_create (st : RTEState) (u : User)
    (scoId now : Nat) (sco : SCO) (e : Enrollment)
    (hsco : st.scos.find? (scoById scoId) = some sco)
    (henr : st.enrollments.find? (activeEnrFor u.id sco.courseId) = some e)
    (hcons : ∀ a ∈ st.attempts, openFor u.id scoId a = true →
      a.enrollmentId = e.id) :
    (∀ a, st.attempts.find? (openFor u.id scoId) = some a →
      (scorm_init st u scoId now).1.attemptId = some a.id ∧
      (scorm_init st u scoId now).2.attempts =
        updateById st.attempts a.id (fun _ =>
          { a with entry := some "resume", lastAccessedAt := some now }) ∧
      (scorm_init st u scoId now).2.attempts.length =
        st.attempts.length) ∧
    (st.attempts.find? (openFor u.id scoId) = none →
      ∃ na, (scorm_init st u scoId now).2.attempts =
          st.attempts ++ [na] ∧
        (scorm_init st u scoId now).1.attemptId = some na.id ∧
        na.attemptNumber = st.attempts.countP (priorPred u.id scoId) + 1 ∧
        na.entry = some "ab-initio" ∧
        na.completionStatus = "not attempted") := by
  have hfeq := find?_openEnr_eq_find?_open st u.id scoId e.id hcons
  constructor
  · intro a ha
    have hopen : st.attempts.find? (openEnrPred u.id scoId e.id) = some a :=
      by rw [hfeq, ha]
    refine ⟨?_, ?_, ?_⟩ <;>
      simp [scorm_init, hsco, henr, hopen, updateById]
  · intro hn
    have hopen : st.attempts.find? (openEnrPred u.id scoId e.id) = none :=
      by rw [hfeq, hn]
    simp only [scorm_init, hsco, henr, hopen]
    exact ⟨_, rfl, rfl, rfl, rfl, rfl⟩

/-- C1 witness: resuming the open attempt of the one-attempt state
returns id 100 and creates nothing; the attempt-free state gets exactly
one new attempt numbered 1 with entry ab-initio. -/
theorem C1_initialize_resume_or_create_witness :
    ((scorm_init st1 learner1 10 7).1.attemptId = some 100 ∧
     (scorm_init st1 learner1 10 7).2.attempts.length =
       st1.attempts.length) ∧
    (∃ na, (scorm_init st0 learner1 10 7).2.attempts =
        st0.attempts ++ [na] ∧
      (scorm_init st0 learner1 10 7).1.attemptId = some na.id ∧
      na.attemptNumber = st0.attempts.countP (priorPred 1 10) + 1 ∧
      na.entry = some "ab-initio" ∧
      na.completionStatus = "not attempted") := by
  have h1 := (C1_initialize_resume_or_create st1 learner1 10 7 sco10 enr5
    (by decide) (by decide) (by decide)).1 attempt100 (by decide)
  have h2 := (C1_initialize_resume_or_create st0 learner1 10 7 sco10 enr5
    (by decide) (by decide) (by decide)).2 (by decide)
  exact ⟨⟨h1.1, h1.2.2⟩, h2⟩

theorem dval_le_nine (c : Char) (h : c.isDigit = true) : dval c ≤ 9 := by
  simp only [Char.isDigit, Bool.and_eq_true, decide_eq_true_eq] at h
  obtain ⟨h1, h2⟩ := h
  have h3 : c.val.toNat ≤ 57 :=
    UInt32.toNat_le_of_le (by norm_num [UInt32.size]) h2
  simp only [dval, Char.toNat]
  omega

theorem digitRun_bound (l : List Char) :
    (digitRun l).1 < 10 ^ (digitRun l).2.1 := by
  induction l with
  | nil => simp [digitRun]
  | cons c cs ih =>
    by_cases h : c.isDigit
    · have hd := dval_le_nine c h
      rcases hcs : digitRun cs with ⟨v, k, rest⟩
      rw [hcs] at ih
      simp only at ih
      simp only [digitRun, h, if_true, hcs]
      calc dval c * 10 ^ k + v < dval c * 10 ^ k + 10 ^ k :=
            Nat.add_lt_add_left ih _
        _ ≤ 9 * 10 ^ k + 10 ^ k :=
            Nat.add_le_add_right (Nat.mul_le_mul_right _ hd) _
        _ = 10 ^ (k + 1) := by ring
    · simp [digitRun, h]

theorem parseSecGroup_frac_lt (cs : List Char) :
    (parseSecGroup cs).fracVal < 10 ^ (parseSecGroup cs).fracLen := by
  unfold parseSecGroup
  rcases h1 : digitRun cs with ⟨v, k, rest⟩
  dsimp only
  split
  · simp
  · split
    · simp
    · next rest2 =>
        have hb := digitRun_bound rest2
        rcases h2 : digitRun rest2 with ⟨fv, fk, rest3⟩
        rw [h2] at hb
        simp only at hb
        dsimp only
        split
        · simp
        · split
          · simpa using hb
          · simp
    · simp

theorem parseDuration_frac_lt (s : String) (d : Duration)
    (h : parseDuration s = some d) :
    d.seconds.fracVal < 10 ^ d.seconds.fracLen := by
  unfold parseDuration at h
  split at h
  · simp only [Option.some_inj] at h
    subst h
    exact parseSecGroup_frac_lt _
  · exact absurd h (by simp)

theorem natAdd_floor (n : ℕ) (f : ℚ) (h0 : 0 ≤ f) (h1 : f < 1) :
    ⌊(n : ℚ) + f⌋ = (n : ℤ) := by
  rw [Int.floor_eq_iff]
  constructor
  · push_cast
    linarith
  · push_cast
    linarith

theorem durationSeconds_is_truncation (d : Duration)
    (h : d.seconds.fracVal < 10 ^ d.seconds.fracLen) :
    (durationSeconds d : ℤ) = ⌊durationValue d⌋ := by
  have hf0 : (0 : ℚ) ≤
      (d.seconds.fracVal : ℚ) / (10 : ℚ) ^ d.seconds.fracLen := by
    positivity
  have hf1 : (d.seconds.fracVal : ℚ) / (10 : ℚ) ^ d.seconds.fracLen < 1 := by
    rw [div_lt_one (by positivity)]
    exact_mod_cast h
  have hval : durationValue d = ((durationSeconds d : ℕ) : ℚ) +
      (d.seconds.fracVal : ℚ) / (10 : ℚ) ^ d.seconds.fracLen := by
    unfold durationValue durationSeconds secGroupValue
    push_cast
    ring
  rw [hval, natAdd_floor _ _ hf0 hf1]

/-- C3: SetValue of cmi.session_time by the owner with a string the
duration pattern accepts stores the integer truncation of
hours times 3600 plus minutes times 60 plus seconds as session_time,
adds exactly that integer to total_time, and a following GetValue of
cmi.session_time renders it as PT, the integer, then S.  The truncation
reading is exact-rational: the fractional digits are discarded. -/
theorem C3_session_time_truncated (st : RTEState) (u : User)
    (attemptId now : Nat) (v : String) (a : LearnerAttempt) (d : Duration)
    (hfind : st.attempts.find? (ownerPred attemptId u.id) = some a)
    (hparse : parseDuration v = some d) :
    (scorm_set_value st u attemptId "cmi.session_time" v now).1 =
      { success := true, errorCode := "0" } ∧
    (scorm_set_value st u attemptId "cmi.session_time" v now).2.attempts =
      updateById st.attempts attemptId (fun _ =>
        { a with sessionTime := durationSeconds d,
                 totalTime := a.totalTime + durationSeconds d,
                 lastAccessedAt := some now }) ∧
    (durationSeconds d : ℤ) = ⌊durationValue d⌋ ∧
    (scorm_get_value
        (scorm_set_value st u attemptId "cmi.session_time" v now).2
        u attemptId "cmi.session_time").value =
      secondsStr (durationSeconds d) := by
  obtain ⟨haid, hauid⟩ := ownerPred_fields attemptId u.id a
    (List.find?_some hfind)
  have hsome : setField a "cmi.session_time" v now =
      some { a with sessionTime := durationSeconds d,
                    totalTime := a.totalTime + durationSeconds d } := by
    simp [setField, hparse, durationSeconds]
  have hstate : (scorm_set_value st u attemptId "cmi.session_time" v now).2 =
      { st with attempts := updateById st.attempts attemptId (fun _ =>
          { a with sessionTime := durationSeconds d,
                   totalTime := a.totalTime + durationSeconds d,
                   lastAccessedAt := some now }) } := by
    simp [scorm_set_value, hfind, hsome]
  refine ⟨by simp [scorm_set_value, hfind, hsome], by rw [hstate], ?_, ?_⟩
  · exact durationSeconds_is_truncation d (parseDuration_frac_lt v d hparse)
  · rw [hstate]
    have hfind2 := find?_owner_update_const st.attempts attemptId u.id a
      { a with sessionTime := durationSeconds d,
               totalTime := a.totalTime + durationSeconds d,
               lastAccessedAt := some now }
      hfind haid hauid
    simp [scorm_get_value, hfind2]

/-- C3 witness: on the concrete attempt, SetValue of PT1H30M15S stores
5415 seconds, total_time grows from 0 to exactly 5415, and GetValue of
cmi.session_time renders PT5415S. -/
theorem C3_session_time_truncated_witness :
    (scorm_set_value st1 learner1 100 "cmi.session_time" "PT1H30M15S" 7).1 =
      { success := true, errorCode := "0" } ∧
    (scorm_set_value st1 learner1 100 "cmi.session_time" "PT1H30M15S"
        7).2.attempts =
      updateById st1.attempts 100 (fun _ =>
        { attempt100 with sessionTime := 5415,
                          totalTime := attempt100.totalTime + 5415,
                          lastAccessedAt := some 7 }) ∧
    (scorm_get_value
        (scorm_set_value st1 learner1 100 "cmi.session_time" "PT1H30M15S"
          7).2
        learner1 100 "cmi.session_time").value = "PT5415S" := by
  have h := C3_session_time_truncated st1 learner1 100 7 "PT1H30M15S"
    attempt100
    { hours := 1, minutes := 30,
      seconds := { intPart := 15, fracVal := 0, fracLen := 0 } }
    (by decide) (by decide)
  exact ⟨h.1, h.2.1, h.2.2.2⟩

theorem map_congr_mem {α β : Type} (l : List α) (f g : α → β)
    (h : ∀ a ∈ l, f a = g a) : l.map f = l.map g := by
  induction l with
  | nil => rfl
  | cons a t ih =>
    have ha := h a (List.mem_cons_self a t)
    have ht := ih fun b hb => h b (List.mem_cons_of_mem a hb)
    simp [ha, ht]

theorem finishStatus_idem (s : String) :
    finishStatus (finishStatus s) = finishStatus s := by
  unfold finishStatus
  by_cases h : s == "not attempted"
  · simp [h]
  · simp [h]

/-- C5: Finish on an attempt owned by the caller succeeds with error_code
0, rewrites completion_status from not attempted to incomplete and leaves
every other completion_status unchanged; a second Finish also succeeds
and yields the same attempt state apart from the last-accessed stamp. -/
theorem C5_finish_idempotent (st : RTEState) (u : User)
    (attemptId now now2 : Nat) (a : LearnerAttempt)
    (hfind : st.attempts.find? (ownerPred attemptId u.id) = some a) :
    (scorm_finish st u attemptId now).1 =
      { success := true, errorCode := "0" } ∧
    (scorm_finish st u attemptId now).2.attempts =
      updateById st.attempts attemptId (fun _ =>
        { a with lastAccessedAt := some now,
                 completionStatus := finishStatus a.completionStatus }) ∧
    (a.completionStatus = "not attempted" →
      finishStatus a.completionStatus = "incomplete") ∧
    (a.completionStatus ≠ "not attempted" →
      finishStatus a.completionStatus = a.completionStatus) ∧
    (scorm_finish (scorm_finish st u attemptId now).2 u attemptId now2).1 =
      { success := true, errorCode := "0" } ∧
    eraseLastAccessed
        (scorm_finish (scorm_finish st u attemptId now).2 u attemptId
          now2).2 =
      eraseLastAccessed (scorm_finish st u attemptId now).2 := by
  obtain ⟨haid, hauid⟩ := ownerPred_fields attemptId u.id a
    (List.find?_some hfind)
  have hstate1 : (scorm_finish st u attemptId now).2 =
      { st with attempts := updateById st.attempts attemptId (fun _ =>
          { a with lastAccessedAt := some now,
                   completionStatus := finishStatus a.completionStatus }) }
      := by
    simp [scorm_finish, hfind]
  have hfind2 := find?_owner_update_const st.attempts attemptId u.id a
    { a with lastAccessedAt := some now,
             completionStatus := finishStatus a.completionStatus }
    hfind haid hauid
  have hstate2 : (scorm_finish (scorm_finish st u attemptId now).2 u
      attemptId now2).2 =
      { st with attempts := (updateById
          (updateById st.attempts attemptId (fun _ =>
            { a with lastAccessedAt := some now,
                     completionStatus := finishStatus a.completionStatus }))
          attemptId (fun _ =>
            { a with lastAccessedAt := some now2,
                     completionStatus :=
                       finishStatus (finishStatus a.completionStatus) })) }
      := by
    rw [hstate1]
    simp [scorm_finish, hfind2]
  refine ⟨by simp [scorm_finish, hfind], by rw [hstate1], ?_, ?_, ?_, ?_⟩
  · intro h
    simp [finishStatus, h]
  · intro h
    simp [finishStatus, h]
  · rw [hstate1]
    simp [scorm_finish, hfind2]
  · rw [hstate2, hstate1]
    unfold eraseLastAccessed updateById
    simp only [List.map_map, RTEState.mk.injEq, true_and, and_true]
    apply map_congr_mem
    intro b hb
    by_cases hbid : b.id == attemptId
    · simp [Function.comp, hbid, haid, finishStatus_idem]
    · simp [Function.comp, hbid]

/-- C5 witness: Finish on the concrete not-attempted attempt rewrites it
to incomplete, and the doubled call produces the same state up to the
last-accessed stamp with no error. -/
theorem C5_finish_idempotent_witness :
    (scorm_finish st1 learner1 100 7).1 =
      { success := true, errorCode := "0" } ∧
    finishStatus attempt100.completionStatus = "incomplete" ∧
    (scorm_finish (scorm_finish st1 learner1 100 7).2 learner1 100 9).1 =
      { success := true, errorCode := "0" } ∧
    eraseLastAccessed
        (scorm_finish (scorm_finish st1 learner1 100 7).2 learner1 100
          9).2 =
      eraseLastAccessed (scorm_finish st1 learner1 100 7).2 := by
  have h := C5_finish_idempotent st1 learner1 100 7 9 attempt100
    (by decide)
  exact ⟨h.1, h.2.2.1 (by decide), h.2.2.2.2.1, h.2.2.2.2.2⟩

theorem eq_of_idsUnique (st : RTEState) (hu : idsUnique st)
    (a b : LearnerAttempt) (ha : a ∈ st.attempts) (hb : b ∈ st.attempts)
    (hid : a.id = b.id) : a = b :=
  List.inj_on_of_nodup_map hu ha hb hid

theorem scorm_commit_snd (st : RTEState) (u : User) (i : Nat) :
    (scorm_commit st u i).2 = st := by
  cases hfind : st.attempts.find? (ownerPred i u.id) <;>
    simp [scorm_commit, hfind]

theorem isOpenStatus_finishStatus (s : String) :
    isOpenStatus (finishStatus s) = isOpenStatus s := by
  by_cases h : s = "not attempted"
  · subst h
    rfl
  · unfold finishStatus
    rw [if_neg (by simpa using h)]

theorem Inv_updateById (st : RTEState) (i : Nat) (a a1 : LearnerAttempt)
    (h : Inv st) (hamem : a ∈ st.attempts) (haid : a.id = i)
    (hid : a1.id = a.id) (huser : a1.userId = a.userId)
    (hsco : a1.scoId = a.scoId) (henr : a1.enrollmentId = a.enrollmentId)
    (hopen : isOpenStatus a1.completionStatus =
      isOpenStatus a.completionStatus) :
    Inv { st with attempts := updateById st.attempts i (fun _ => a1) } := by
  obtain ⟨hu, hf, hc, ho⟩ := h
  have hgid : ∀ b : LearnerAttempt,
      ((fun b => if b.id == i then a1 else b) b).id = b.id := by
    intro b
    by_cases hb : b.id == i
    · have hb2 : b.id = i := by simpa using hb
      simp [hb, hid, haid, hb2]
    · simp [hb]
  refine ⟨?_, ?_, ?_, ?_⟩
  · unfold idsUnique updateById
    rw [List.map_map]
    have hfun : ((fun x : LearnerAttempt => x.id) ∘
        (fun b => if b.id == i then a1 else b)) =
        fun x : LearnerAttempt => x.id := funext hgid
    rw [hfun]
    exact hu
  · intro b hb
    obtain ⟨c, hcmem, rfl⟩ := List.mem_map.1 hb
    have := hgid c
    simp only at this
    rw [this]
    exact hf c hcmem
  · intro b hb
    obtain ⟨c, hcmem, rfl⟩ := List.mem_map.1 hb
    by_cases hcid : c.id == i
    · rw [if_pos hcid]
      intro sco hs e he
      rw [henr]
      exact hc a hamem sco (by rwa [hsco] at hs) e (by rwa [huser] at he)
    · rw [if_neg hcid]
      exact hc c hcmem
  · intro uid sid
    unfold updateById
    rw [List.countP_map]
    have hcong : ∀ b ∈ st.attempts,
        (openFor uid sid ∘ (fun b => if b.id == i then a1 else b)) b =
          openFor uid sid b := by
      intro b hb
      by_cases hbid : b.id == i
      · have hb2 : b.id = i := by simpa using hbid
        have hba : b = a :=
          eq_of_idsUnique st hu b a hb hamem (by rw [hb2, haid])
        subst hba
        have : openFor uid sid a1 = openFor uid sid b := by
          unfold openFor
          rw [huser, hsco, hopen]
        simpa [Function.comp, hbid] using this
      · simp [Function.comp, hbid]
    rw [countP_congr_mem st.attempts _ _ hcong]
    exact ho uid sid

theorem Inv_append_new (st : RTEState) (na : LearnerAttempt) (h : Inv st)
    (hid : na.id = st.nextAttemptId)
    (hcons : attemptConsistent st na)
    (hnoopen : st.attempts.find? (openFor na.userId na.scoId) = none) :
    Inv { st with attempts := st.attempts ++ [na],
                  nextAttemptId := st.nextAttemptId + 1 } := by
  obtain ⟨hu, hf, hc, ho⟩ := h
  refine ⟨?_, ?_, ?_, ?_⟩
  · unfold idsUnique
    rw [List.map_append]
    rw [List.nodup_append]
    refine ⟨hu, by simp, ?_⟩
    intro x hx hx2
    simp only [List.map_cons, List.map_nil, List.mem_cons,
      List.not_mem_nil, or_false] at hx2
    obtain ⟨c, hcmem, rfl⟩ := List.mem_map.1 hx
    have := hf c hcmem
    omega
  · intro b hb
    dsimp only at hb ⊢
    rcases List.mem_append.1 hb with hbl | hbr
    · have := hf b hbl
      omega
    · simp only [List.mem_singleton] at hbr
      subst hbr
      omega
  · intro b hb
    rcases List.mem_append.1 hb with hbl | hbr
    · exact hc b hbl
    · simp only [List.mem_singleton] at hbr
      subst hbr
      exact hcons
  · intro uid sid
    rw [List.countP_append]
    by_cases hmatch : uid = na.userId ∧ sid = na.scoId
    · obtain ⟨rfl, rfl⟩ := hmatch
      have hzero : st.attempts.countP (openFor na.userId na.scoId) = 0 :=
        List.countP_eq_zero.2 (List.find?_eq_none.1 hnoopen)
      rw [hzero]
      have : List.countP (openFor na.userId na.scoId) [na] ≤ 1 := by
        simp [List.countP_cons]
        split <;> omega
      omega
    · have hfalse : openFor uid sid na = false := by
        unfold openFor
        rcases Decidable.not_and_iff_or_not.1 hmatch with hn | hn
        · have h1 : (na.userId == uid) = false := by
            rw [beq_eq_false_iff_ne]
            omega
          simp [h1]
        · have h1 : (na.scoId == sid) = false := by
            rw [beq_eq_false_iff_ne]
            omega
          simp [h1]
      have : List.countP (openFor uid sid) [na] = 0 := by
        simp [List.countP_cons, hfalse]
      rw [this]
      have := ho uid sid
      omega

theorem initialize_preserves_Inv (st : RTEState) (u : User)
    (scoId now : Nat) (h : Inv st) :
    Inv (scorm_init st u scoId now).2 := by
  cases hsco : st.scos.find? (scoById scoId) with
  | none => simpa [scorm_init, hsco] using h
  | some sco =>
    cases henr : st.enrollments.find? (activeEnrFor u.id sco.courseId) with
    | none => simpa [scorm_init, hsco, henr] using h
    | some e =>
      cases hopen : st.attempts.find? (openEnrPred u.id scoId e.id) with
      | some a =>
        have hstate : (scorm_init st u scoId now).2 =
            { st with attempts := updateById st.attempts a.id (fun _ =>
                { a with entry := some "resume",
                         lastAccessedAt := some now }) } := by
          simp [scorm_init, hsco, henr, hopen]
        rw [hstate]
        exact Inv_updateById st a.id a _ h
          (List.mem_of_find?_eq_some hopen) rfl rfl rfl rfl rfl rfl
      | none =>
        obtain ⟨hu, hf, hc, ho⟩ := h
        have hcons2 : ∀ b ∈ st.attempts, openFor u.id scoId b = true →
            b.enrollmentId = e.id := by
          intro b hb hbo
          unfold openFor at hbo
          simp only [Bool.and_eq_true, beq_iff_eq] at hbo
          obtain ⟨⟨hbu, hbs⟩, -⟩ := hbo
          exact hc b hb sco (by rw [hbs]; exact hsco) e
            (by rw [hbu]; exact henr)
        have hnoopen2 : st.attempts.find? (openFor u.id scoId) = none := by
          rw [← find?_openEnr_eq_find?_open st u.id scoId e.id hcons2]
          exact hopen
        have hstate : (scorm_init st u scoId now).2 =
            { st with attempts := (st.attempts ++
                [{ id := st.nextAttemptId, userId := u.id, scoId := scoId,
                   enrollmentId := e.id,
                   attemptNumber := (st.attempts.countP
                     (priorPred u.id scoId) + 1),
                   completionStatus := "not attempted",
                   successStatus := "unknown", scoreRaw := none,
                   scoreMin := none, scoreMax := none, scoreScaled := none,
                   sessionTime := 0, totalTime := 0, location := none,
                   suspendData := none, entry := some "ab-initio",
                   exitMode := none, progressMeasure := none,
                   startedAt := now, lastAccessedAt := none,
                   completedAt := none }]),
                      nextAttemptId := st.nextAttemptId + 1 } := by
          simp [scorm_init, hsco, henr, hopen]
        rw [hstate]
        apply Inv_append_new st _ ⟨hu, hf, hc, ho⟩ rfl
        · intro sco2 hs e2 he
          rw [hsco] at hs
          injection hs with hs
          subst hs
          rw [henr] at he
          injection he with he
          subst he
          rfl
        · exact hnoopen2

theorem finish_preserves_Inv (st : RTEState) (u : User) (i now : Nat)
    (h : Inv st) : Inv (scorm_finish st u i now).2 := by
  cases hfind : st.attempts.find? (ownerPred i u.id) with
  | none => simpa [scorm_finish, hfind] using h
  | some a =>
    obtain ⟨haid, hauid⟩ := ownerPred_fields i u.id a
      (List.find?_some hfind)
    have hstate : (scorm_finish st u i now).2 =
        { st with attempts := updateById st.attempts i (fun _ =>
            { a with lastAccessedAt := some now,
                     completionStatus :=
                       finishStatus a.completionStatus }) } := by
      simp [scorm_finish, hfind]
    rw [hstate]
    exact Inv_updateById st i a _ h (List.mem_of_find?_eq_some hfind)
      haid rfl rfl rfl rfl (isOpenStatus_finishStatus a.completionStatus)

theorem step_preserves_Inv {st st' : RTEState} (h : Inv st)
    (hs : RTEStep st st') : Inv st' := by
  cases hs with
  | doInit u scoId now => exact initialize_preserves_Inv st u scoId now h
  | doCommit u i => rw [scorm_commit_snd]; exact h
  | doFinish u i now => exact finish_preserves_Inv st u i now h

theorem reach_preserves_Inv {st st' : RTEState} (h : Inv st)
    (hr : ReachICF st st') : Inv st' := by
  induction hr with
  | refl => exact h
  | tail hab hbc ih => exact step_preserves_Inv ih hbc

/-- C2 counterexample: the claim as stated is false on the code.  From
the attempt-free concrete state, the RTE call sequence Initialize,
SetValue completed, Initialize, SetValue incomplete is reachable by RTE
operations and leaves learner 1 with two open attempts on SCO 10:
SetValue of cmi.completion_status may rewind a completed attempt to an
open status after a new attempt has been created. -/
theorem C2_counterexample :
    Relation.ReflTransGen RTEStepFull st0 cexState4 ∧
    ¬ atMostOneOpen cexState4 := by
  constructor
  · have s1 : RTEStepFull st0 cexState1 :=
      RTEStepFull.doInit st0 learner1 10 1
    have s2 : RTEStepFull cexState1 cexState2 :=
      RTEStepFull.doSet cexState1 learner1 100 "cmi.completion_status"
        "completed" 2
    have s3 : RTEStepFull cexState2 cexState3 :=
      RTEStepFull.doInit cexState2 learner1 10 3
    have s4 : RTEStepFull cexState3 cexState4 :=
      RTEStepFull.doSet cexState3 learner1 100 "cmi.completion_status"
        "incomplete" 4
    exact .head s1 (.head s2 (.head s3 (.single s4)))
  · intro hmono
    exact absurd (hmono 1 10) (by decide)

/-- C2 amended: each (user, sco) pair has at most one open attempt in
every state reachable by Initialize, Commit and Finish from a
well-formed state, and in particular every Initialize call preserves the
invariant; the claim cannot include SetValue, which can reopen a closed
attempt as the counterexample shows. -/
theorem C2_amended_at_most_one_open (st st' : RTEState) (h : Inv st)
    (hr : ReachICF st st') : atMostOneOpen st' :=
  (reach_preserves_Inv h hr).2.2.2

/-- C2 amended witness: from the concrete well-formed attempt-free state,
one Initialize call leads to a state with at most one open attempt per
(user, sco) pair. -/
theorem C2_amended_at_most_one_open_witness :
    atMostOneOpen (scorm_init st0 learner1 10 1).2 := by
  apply C2_amended_at_most_one_open st0
  · refine ⟨?_, ?_, ?_, ?_⟩
    · simp [idsUnique, st0]
    · intro a ha
      simp [st0] at ha
    · intro a ha
      simp [st0] at ha
    · intro uid sid
      simp [atMostOneOpen, st0]
  · exact Relation.ReflTransGen.single (RTEStep.doInit st0 learner1 10 1)

end ScormRTE
